import Mathlib

/-!
# Verification of the tgfx GPU resource-management and scheduling core

This file gives a shallow embedding, in Lean 4, of the identity/key system,
the resource cache, the proxy layer and the render-task variants of the tgfx
rendering engine, and proves the stated properties of that code.

Direct embeddings come from the C++ sources (`RenderTargetCopyTask.cpp`,
`TextureCreateTask.cpp`, `TextureResolveRenderTask.cpp`, `ResourceKey.h`,
`UniqueDomain.h`).  Components whose implementation files are not part of the
provided sources (the resource cache, the drawing manager's flush loop, the
`UniqueKey::Combine` body and the proxy resolution path) are modelled from the
specification; each such definition carries a doc comment starting with
`Modelled from the spec:`.
-/

namespace Tgfx

/-! ## Identity and key system -/

/-- Counters of a `UniqueDomain` (`UniqueDomain.h`): `_useCount` is the total
number of references, `_strongCount` the number of strong references. -/
structure DomainCounters where
  useCount : Int
  strongCount : Int
deriving DecidableEq, Repr

/-- A table of live unique domains, keyed by the domain's global unique ID.
This is the global state the atomic counters of `UniqueDomain` live in. -/
abbrev DomainTable : Type := List (Nat × DomainCounters)

/-- A `UniqueKey` (`ResourceKey.h`): hashed byte content plus a pointer to its
`UniqueDomain`, here represented by the domain's unique ID (`none` models a
null `uniqueDomain` pointer, i.e. an empty key). -/
structure UniqueKey where
  data : List Nat
  domainId : Option Nat
deriving DecidableEq, Repr

/-- Modelled from the spec: the body of `UniqueKey::Combine` is not among the
provided sources; per the header comment in `ResourceKey.h` and spec §4.1, the
returned key "will share the same unique domain as the original UniqueKey"
while extending its byte content with the `BytesKey` bytes. -/
def UniqueKey.Combine (uniqueKey : UniqueKey) (bytesKey : List Nat) : UniqueKey :=
  { data := uniqueKey.data ++ bytesKey, domainId := uniqueKey.domainId }

/-- `UniqueKey::useCount()`: reads the `_useCount` of the key's domain; an
empty key (null domain pointer) observes no domain, modelled as 0. -/
def UniqueKey.useCountIn (key : UniqueKey) (domains : DomainTable) : Int :=
  match key.domainId with
  | none => 0
  | some d =>
    match List.lookup d domains with
    | some counters => counters.useCount
    | none => 0

/-- `UniqueKey::strongCount()`: reads the `_strongCount` of the key's domain;
an empty key observes no domain, modelled as 0. -/
def UniqueKey.strongCountIn (key : UniqueKey) (domains : DomainTable) : Int :=
  match key.domainId with
  | none => 0
  | some d =>
    match List.lookup d domains with
    | some counters => counters.strongCount
    | none => 0

/-! ## GPU objects and backend commands

The GPU backend (`Gpu`) is an external collaborator (spec §6): its execution
surface is modelled as a list of issued commands. -/

/-- Pixel formats used by texture-create tasks (subset sufficient for the
embedded code paths). -/
inductive PixelFormat where
  | RGBA_8888
  | ALPHA_8
  | BGRA_8888
deriving DecidableEq, Repr

/-- Image origins used by texture-create tasks. -/
inductive ImageOrigin where
  | TopLeft
  | BottomLeft
deriving DecidableEq, Repr

/-- A rectangle, as stored by a copy task (`srcRect`).  The scheduler never
computes on its coordinates, it only forwards them to the backend. -/
structure Rect where
  left : Int
  top : Int
  right : Int
  bottom : Int
deriving DecidableEq, Repr

/-- A point, as stored by a copy task (`dstPoint`). -/
structure Point where
  x : Int
  y : Int
deriving DecidableEq, Repr

/-- A GPU render target: identity plus its multisample count
(`renderTarget->sampleCount()`). -/
structure RenderTarget where
  id : Nat
  sampleCount : Nat
deriving DecidableEq, Repr

/-- A GPU texture: identity plus whether its sampler carries mipmaps
(`texture->getSampler()->hasMipmaps()`). -/
structure Texture where
  id : Nat
  samplerHasMipmaps : Bool
deriving DecidableEq, Repr

/-- The backend calls a render task may issue: the three `Gpu` entry points
exercised by the embedded task variants. -/
inductive GpuCommand where
  | copyRenderTargetToTexture (renderTargetId : Nat) (textureId : Nat)
      (srcRect : Rect) (dstPoint : Point)
  | resolveRenderTarget (renderTargetId : Nat)
  | regenerateMipMapLevels (textureId : Nat)
deriving DecidableEq, Repr

/-- A decoded image buffer (opaque payload produced by a decoder). -/
structure ImageBuffer where
  id : Nat
deriving DecidableEq, Repr

/-- An image decoder.  Decoding itself is an external collaborator (spec §1);
`decode()` is modelled by the stored outcome: `none` is a failed decode. -/
structure ImageDecoder where
  decodeResult : Option ImageBuffer
deriving DecidableEq, Repr

/-- The slice of a `Context` the embedded tasks consult: `Texture::MakeFrom`
(texture materialization from a decoded buffer) is backend work, modelled as a
function of the context; `none` is an allocation failure. -/
structure Context where
  makeTexture : ImageBuffer → Bool → Option Texture

/-! ## Texture creation tasks (`TextureCreateTask.cpp`) -/

/-- The state of an `ImageDecoderTask`: its decoder reference (a null
`shared_ptr` is `none`) and the `mipMapped` flag. -/
structure ImageDecoderTask where
  uniqueKey : UniqueKey
  decoder : Option ImageDecoder
  mipMapped : Bool

/-- `ImageDecoderTask::onMakeResource` from `TextureCreateTask.cpp`: returns
null when the decoder is null or the decode fails; on a successful texture
creation it clears the decoder reference ("Free the decoded image buffer
immediately to reduce memory pressure") before returning the texture.  The
result pairs the returned resource with the task's post-call state. -/
def ImageDecoderTask.onMakeResource (task : ImageDecoderTask) (context : Context) :
    Option Texture × ImageDecoderTask :=
  match task.decoder with
  | none => (none, task)
  | some decoder =>
    match decoder.decodeResult with
    | none => (none, task)
    | some imageBuffer =>
      match context.makeTexture imageBuffer task.mipMapped with
      | some texture => (some texture, { task with decoder := none })
      | none => (none, task)

/-- A `TextureCreateTask` is either an `EmptyTextureTask` or an
`ImageDecoderTask` (`TextureCreateTask.cpp`). -/
inductive TextureCreateTask where
  | emptyTexture (uniqueKey : UniqueKey) (width : Int) (height : Int)
      (format : PixelFormat) (mipMapped : Bool) (origin : ImageOrigin)
  | imageDecoder (task : ImageDecoderTask)

/-- `TextureCreateTask::MakeFrom(uniqueKey, width, height, format, mipMapped,
origin)`: rejects non-positive dimensions, otherwise builds an
`EmptyTextureTask`. -/
def TextureCreateTask.MakeFrom (uniqueKey : UniqueKey) (width height : Int)
    (format : PixelFormat) (mipMapped : Bool) (origin : ImageOrigin) :
    Option TextureCreateTask :=
  if width ≤ 0 ∨ height ≤ 0 then none
  else some (.emptyTexture uniqueKey width height format mipMapped origin)

/-- `TextureCreateTask::MakeFrom(uniqueKey, decoder, mipMapped)`: rejects a
null decoder, otherwise builds an `ImageDecoderTask`. -/
def TextureCreateTask.MakeFromDecoder (uniqueKey : UniqueKey)
    (decoder : Option ImageDecoder) (mipMapped : Bool) : Option TextureCreateTask :=
  match decoder with
  | none => none
  | some d => some (.imageDecoder ⟨uniqueKey, some d, mipMapped⟩)

/-! ## Proxies -/

/-- A render target proxy, observed through `getRenderTarget()`: either the
resolved render target or null. -/
structure RenderTargetProxy where
  renderTarget : Option RenderTarget

/-- A texture proxy: an already-resolved texture (`getTexture()` result), or
`none` together with the pending creation task (spec §4.3's
`{Unresolved(recipe), Resolved(resource)}` shape). -/
structure TextureProxy where
  resolvedTexture : Option Texture
  task : ImageDecoderTask

/-- Modelled from the spec: the proxy resolution path (`ProxyProvider` /
`TextureProxy` implementation) is not among the provided sources.  Per spec
§4.3: if already resolved, return the cached handle; otherwise run the owning
creation task's `onMakeResource` once, cache a non-null result, and on a null
result leave the proxy unresolved, propagating null with no retry.  The third
component counts the `onMakeResource` invocations made by this call. -/
def TextureProxy.resolve (proxy : TextureProxy) (context : Context) :
    Option Texture × TextureProxy × Nat :=
  match proxy.resolvedTexture with
  | some texture => (some texture, proxy, 0)
  | none =>
    match proxy.task.onMakeResource context with
    | (some texture, task') =>
      (some texture, { resolvedTexture := some texture, task := task' }, 1)
    | (none, task') => (none, { proxy with task := task' }, 1)

/-! ## Render task variants (`RenderTargetCopyTask.cpp`,
`TextureResolveRenderTask.cpp`) -/

/-- `RenderTargetCopyTask`: source render-target proxy, destination texture
proxy, and the stored source rectangle and destination point. -/
structure RenderTargetCopyTask where
  renderTargetProxy : RenderTargetProxy
  dest : TextureProxy
  srcRect : Rect
  dstPoint : Point

/-- `RenderTargetCopyTask::execute(gpu)`: fails (false, after logging) when
the source render target or the destination texture is null; otherwise issues
`copyRenderTargetToTexture` with the stored rectangle and point and returns
true.  The issued backend commands are returned alongside the result. -/
def RenderTargetCopyTask.execute (task : RenderTargetCopyTask) :
    Bool × List GpuCommand :=
  match task.renderTargetProxy.renderTarget with
  | none => (false, [])
  | some renderTarget =>
    match task.dest.resolvedTexture with
    | none => (false, [])
    | some texture =>
      (true, [GpuCommand.copyRenderTargetToTexture renderTarget.id texture.id
        task.srcRect task.dstPoint])

/-- `TextureResolveRenderTask`: a render target and an optional attached
texture. -/
structure TextureResolveRenderTask where
  renderTarget : RenderTarget
  texture : Option Texture

/-- `TextureResolveRenderTask::execute(gpu)`: resolves the render target when
`sampleCount() > 1`, regenerates mip levels when the attached texture is
non-null and its sampler has mipmaps, and always returns true. -/
def TextureResolveRenderTask.execute (task : TextureResolveRenderTask) :
    Bool × List GpuCommand :=
  let resolveCmds :=
    if task.renderTarget.sampleCount > 1 then
      [GpuCommand.resolveRenderTarget task.renderTarget.id]
    else []
  let mipCmds :=
    match task.texture with
    | some texture =>
      if texture.samplerHasMipmaps then
        [GpuCommand.regenerateMipMapLevels texture.id]
      else []
    | none => []
  (true, resolveCmds ++ mipCmds)

/-- True when the command list contains a multisample resolve. -/
def issuesResolve (cmds : List GpuCommand) : Prop :=
  ∃ id, GpuCommand.resolveRenderTarget id ∈ cmds

/-- True when the command list contains a mip-level regeneration. -/
def issuesMipRegen (cmds : List GpuCommand) : Prop :=
  ∃ id, GpuCommand.regenerateMipMapLevels id ∈ cmds

/-! ## Resource cache

Modelled from the spec: the `ResourceCache` implementation file is not among
the provided sources; the model below follows spec §3, §4.2 and the key-type
contracts documented in `ResourceKey.h`. -/

/-- A cache-resident resource (spec §3 "Resource"): identity, its
`memoryUsage()`, at most one scratch key (fixed at construction), at most one
unique key (settable at runtime), and the outstanding strong and weak
reference counts observed by the cache. -/
structure CachedResource where
  id : Nat
  memory : Nat
  scratchKey : Option (List Nat)
  uniqueKey : Option UniqueKey
  strongRefs : Nat
  weakRefs : Nat
deriving DecidableEq, Repr

/-- A resource with no outstanding strong or weak reference (eligible for
eviction per spec §4.2). -/
def CachedResource.unreferenced (r : CachedResource) : Bool :=
  r.strongRefs == 0 && r.weakRefs == 0

/-- The per-context resource store.  The list is kept in recency order with
the least-recently-used resource first (spec §9 leaves the exact recency
bookkeeping open; an ordered list is the chosen consistent policy). -/
structure ResourceCache where
  resources : List CachedResource

/-- Total `memoryUsage()` of a resource list. -/
def totalMemory (resources : List CachedResource) : Nat :=
  (resources.map CachedResource.memory).sum

/-- Total `memoryUsage()` of the cache. -/
def ResourceCache.memoryUsage (cache : ResourceCache) : Nat :=
  totalMemory cache.resources

/-- Modelled from the spec: scratch-key lookup (spec §4.2 `find`): "returns a
match only if it currently has zero external references"; rule 3 of
`ScratchKey` in `ResourceKey.h` states the same gating. -/
def ResourceCache.findScratch (cache : ResourceCache) (key : List Nat) :
    Option CachedResource :=
  cache.resources.find? fun r =>
    r.scratchKey == some key && r.strongRefs == 0

/-- Modelled from the spec: unique-key lookup (spec §4.2 `find`): "bypasses
reference-count gating — multiple requests for the same unique key return the
identical resource even if already referenced"; rule 3 of `UniqueKey` in
`ResourceKey.h` states the same. -/
def ResourceCache.findUnique (cache : ResourceCache) (key : UniqueKey) :
    Option CachedResource :=
  cache.resources.find? fun r => r.uniqueKey == some key

/-- Taking an external strong reference to the resource with the given id
(copying a reference-counted handle). -/
def ResourceCache.addRef (cache : ResourceCache) (rid : Nat) : ResourceCache :=
  ⟨cache.resources.map fun r =>
    if r.id == rid then { r with strongRefs := r.strongRefs + 1 } else r⟩

/-- Modelled from the spec: the eviction walk of `purgeUntilMemoryTo` (spec
§4.2): visit resources from least recently used, stop once the running total
is at most the target, evict an unreferenced resource, and never evict a
resource with an outstanding strong or weak reference. -/
def purgeWalk (target : Nat) : List CachedResource → Nat → List CachedResource
  | [], _ => []
  | r :: rest, total =>
    if total ≤ target then r :: rest
    else if r.unreferenced then purgeWalk target rest (total - r.memory)
    else r :: purgeWalk target rest total

/-- Modelled from the spec: `purgeUntilMemoryTo(target)` (spec §4.2): "evicts
least-recently-used unreferenced resources until total `memoryUsage()` ≤
target; any resource with an outstanding strong or weak reference is never
evicted regardless of target." -/
def ResourceCache.purgeUntilMemoryTo (cache : ResourceCache) (target : Nat) :
    ResourceCache :=
  ⟨purgeWalk target cache.resources (totalMemory cache.resources)⟩

/-! ## Drawing manager

Modelled from the spec: the `DrawingManager` implementation file is not among
the provided sources; the model below follows spec §4.4's flush algorithm:
"walk the pending task list in insertion order; call `execute(gpu)` on each
... Each task is removed after execution." -/

/-- An instrumented render task (spec §8): its identity is recorded when the
task's `execute(gpu)` is invoked. -/
structure RenderTask where
  id : Nat
deriving DecidableEq, Repr

/-- Drawing-manager state: the ordered pending task list plus the recorded
sequence of `execute` invocations. -/
structure DrawingManager where
  pending : List RenderTask
  log : List Nat
deriving DecidableEq, Repr

/-- Appends a render task to the pending list (spec §4.4). -/
def DrawingManager.addTask (manager : DrawingManager) (task : RenderTask) :
    DrawingManager :=
  { manager with pending := manager.pending ++ [task] }

/-- One step of the flush walk: remove the head task from the pending list
and invoke its `execute(gpu)`, recording the invocation. -/
def DrawingManager.flushStep (manager : DrawingManager) : DrawingManager :=
  match manager.pending with
  | [] => manager
  | task :: rest => ⟨rest, manager.log ++ [task.id]⟩

/-- `n` steps of the flush walk. -/
def DrawingManager.flushSteps : Nat → DrawingManager → DrawingManager
  | 0, manager => manager
  | n + 1, manager => DrawingManager.flushSteps n manager.flushStep

/-- The flush walk over a pending list. -/
def flushWalk : List RenderTask → List Nat → DrawingManager
  | [], log => ⟨[], log⟩
  | task :: rest, log => flushWalk rest (log ++ [task.id])

/-- A full flush: walk the whole pending list in insertion order, executing
and removing each task. -/
def DrawingManager.flush (manager : DrawingManager) : DrawingManager :=
  flushWalk manager.pending manager.log

/-- The drawing manager obtained by appending the given tasks, in order, to a
fresh (empty) drawing manager. -/
def appendAll (tasks : List RenderTask) : DrawingManager :=
  tasks.foldl DrawingManager.addTask ⟨[], []⟩

/-! ## Helper lemmas -/

lemma foldl_addTask (tasks : List RenderTask) :
    ∀ (pending : List RenderTask) (log : List Nat),
      tasks.foldl DrawingManager.addTask ⟨pending, log⟩ =
        ⟨pending ++ tasks, log⟩ := by
  induction tasks with
  | nil => intro pending log; simp [List.foldl]
  | cons t rest ih =>
    intro pending log
    simp only [List.foldl, DrawingManager.addTask]
    rw [ih]
    simp

lemma appendAll_eq (tasks : List RenderTask) : appendAll tasks = ⟨tasks, []⟩ := by
  simpa [appendAll] using foldl_addTask tasks [] []

lemma flushSteps_spec (i : Nat) :
    ∀ (tasks : List RenderTask) (log : List Nat), i ≤ tasks.length →
      DrawingManager.flushSteps i ⟨tasks, log⟩ =
        ⟨tasks.drop i, log ++ (tasks.take i).map RenderTask.id⟩ := by
  induction i with
  | zero => intro tasks log _; simp [DrawingManager.flushSteps]
  | succ n ih =>
    intro tasks log h
    cases tasks with
    | nil => simp at h
    | cons t rest =>
      simp only [DrawingManager.flushSteps, DrawingManager.flushStep]
      rw [ih rest (log ++ [t.id]) (by simpa using h)]
      simp

lemma flushWalk_spec :
    ∀ (tasks : List RenderTask) (log : List Nat),
      flushWalk tasks log = ⟨[], log ++ tasks.map RenderTask.id⟩ := by
  intro tasks
  induction tasks with
  | nil => intro log; simp [flushWalk]
  | cons t rest ih =>
    intro log
    simp only [flushWalk]
    rw [ih]
    simp

lemma addRef_entry_uniqueKey (rid : Nat) (r : CachedResource) :
    ((if r.id == rid then { r with strongRefs := r.strongRefs + 1 }
      else r) : CachedResource).uniqueKey = r.uniqueKey := by
  split <;> rfl

lemma addRef_entry_id (rid : Nat) (r : CachedResource) :
    ((if r.id == rid then { r with strongRefs := r.strongRefs + 1 }
      else r) : CachedResource).id = r.id := by
  split <;> rfl

lemma find?_map_addRef (key : UniqueKey) (rid : Nat) :
    ∀ resources : List CachedResource,
      ((resources.map fun r =>
          if r.id == rid then { r with strongRefs := r.strongRefs + 1 } else r).find?
        (fun r => r.uniqueKey == some key)).map CachedResource.id =
      (resources.find? (fun r => r.uniqueKey == some key)).map CachedResource.id := by
  intro resources
  induction resources with
  | nil => rfl
  | cons r rest ih =>
    by_cases h : (r.uniqueKey == some key) = true
    · have h2 : (((if r.id == rid then { r with strongRefs := r.strongRefs + 1 }
          else r) : CachedResource).uniqueKey == some key) = true := by
        rw [addRef_entry_uniqueKey]; exact h
      rw [List.map_cons,
        List.find?_cons_of_pos (p := fun x : CachedResource => x.uniqueKey == some key) _ h2,
        List.find?_cons_of_pos (p := fun x : CachedResource => x.uniqueKey == some key) _ h]
      simp only [Option.map_some']
      rw [addRef_entry_id]
    · have h2 : ¬(((if r.id == rid then { r with strongRefs := r.strongRefs + 1 }
          else r) : CachedResource).uniqueKey == some key) = true := by
        rw [addRef_entry_uniqueKey]; exact h
      rw [List.map_cons,
        List.find?_cons_of_neg (p := fun x : CachedResource => x.uniqueKey == some key) _ h2,
        List.find?_cons_of_neg (p := fun x : CachedResource => x.uniqueKey == some key) _ h]
      exact ih

lemma purgeWalk_sublist (target : Nat) :
    ∀ (resources : List CachedResource) (total : Nat),
      List.Sublist (purgeWalk target resources total) resources := by
  intro resources
  induction resources with
  | nil => intro total; simp [purgeWalk]
  | cons r rest ih =>
    intro total
    simp only [purgeWalk]
    split
    · exact List.Sublist.refl _
    · split
      · exact List.Sublist.cons r (ih (total - r.memory))
      · exact List.Sublist.cons₂ r (ih total)

lemma purgeWalk_keeps_referenced (target : Nat) (r : CachedResource)
    (href : r.unreferenced = false) :
    ∀ (resources : List CachedResource) (total : Nat),
      r ∈ resources → r ∈ purgeWalk target resources total := by
  intro resources
  induction resources with
  | nil => intro total h; simp at h
  | cons a rest ih =>
    intro total hmem
    simp only [purgeWalk]
    split
    · exact hmem
    · rcases List.mem_cons.mp hmem with heq | htail
      · subst heq
        rw [href]
        simp only [Bool.false_eq_true, if_false]
        exact List.mem_cons_self _ _
      · split
        · exact ih (total - a.memory) htail
        · exact List.mem_cons_of_mem a (ih total htail)

lemma totalMemory_cons (r : CachedResource) (rest : List CachedResource) :
    totalMemory (r :: rest) = r.memory + totalMemory rest := by
  simp [totalMemory]

lemma purgeWalk_reaches_target (target : Nat) :
    ∀ resources : List CachedResource,
      (∀ r ∈ resources, r.unreferenced = true) →
      totalMemory (purgeWalk target resources (totalMemory resources)) ≤ target := by
  intro resources
  induction resources with
  | nil => intro _; simp [purgeWalk, totalMemory]
  | cons r rest ih =>
    intro hall
    simp only [purgeWalk]
    split
    · next hle => exact hle
    · rw [hall r (List.mem_cons_self _ _)]
      simp only [if_true]
      rw [totalMemory_cons, Nat.add_sub_cancel_left]
      exact ih fun x hx => hall x (List.mem_cons_of_mem r hx)

/-! ## Claim theorems -/

/-- C1: For every sequence of render tasks T1..Tn appended to a drawing
manager in that order, a single flush calls `execute(gpu)` on exactly those
tasks, each exactly once, in exactly the append order T1..Tn, and each task is
removed from the pending list after its execution: after `i` flush steps the
first `i` tasks have been executed (in order) and are gone from the pending
list, and the full flush leaves an empty pending list with the invocation log
equal to the append order. -/
theorem drawingManager_flush_in_append_order
    (tasks : List RenderTask) (i : Nat) (h : i ≤ tasks.length) :
    (appendAll tasks).pending = tasks ∧
    (DrawingManager.flushSteps i (appendAll tasks)).pending = tasks.drop i ∧
    (DrawingManager.flushSteps i (appendAll tasks)).log =
      (tasks.take i).map RenderTask.id ∧
    (appendAll tasks).flush = ⟨[], tasks.map RenderTask.id⟩ := by
  rw [appendAll_eq]
  refine ⟨rfl, ?_, ?_, ?_⟩
  · rw [flushSteps_spec i tasks [] h]
  · rw [flushSteps_spec i tasks [] h]; simp
  · simp [DrawingManager.flush, flushWalk_spec]

/-- Witness for C1 at the concrete task list [T1, T2, T3] after two flush
steps. -/
theorem drawingManager_flush_in_append_order_witness :
    (appendAll [⟨1⟩, ⟨2⟩, ⟨3⟩]).pending = [⟨1⟩, ⟨2⟩, ⟨3⟩] ∧
    (DrawingManager.flushSteps 2 (appendAll [⟨1⟩, ⟨2⟩, ⟨3⟩])).pending = [⟨3⟩] ∧
    (DrawingManager.flushSteps 2 (appendAll [⟨1⟩, ⟨2⟩, ⟨3⟩])).log = [1, 2] ∧
    (appendAll [⟨1⟩, ⟨2⟩, ⟨3⟩]).flush = ⟨[], [1, 2, 3]⟩ :=
  drawingManager_flush_in_append_order [⟨1⟩, ⟨2⟩, ⟨3⟩] 2 (by decide)

/-- C2: a scratch-key lookup returns a resource only when that resource has
zero strong references; while any strong reference is held, `find` with the
scratch key never returns it. -/
theorem resourceCache_findScratch_requires_unreferenced
    (cache : ResourceCache) (key : List Nat) (r : CachedResource) :
    (cache.findScratch key = some r → r.strongRefs = 0) ∧
    (0 < r.strongRefs → cache.findScratch key ≠ some r) := by
  constructor
  · intro h
    have hp := List.find?_some h
    simp only [Bool.and_eq_true, beq_iff_eq] at hp
    exact hp.2
  · intro hpos h
    have hp := List.find?_some h
    simp only [Bool.and_eq_true, beq_iff_eq] at hp
    omega

/-- Witness for C2 at a concrete cache: an unreferenced resource is found and
its strong count is zero; a referenced resource is never returned. -/
theorem resourceCache_findScratch_requires_unreferenced_witness :
    (ResourceCache.findScratch ⟨[⟨1, 4, some [5], none, 0, 0⟩]⟩ [5] =
        some ⟨1, 4, some [5], none, 0, 0⟩ →
      (⟨1, 4, some [5], none, 0, 0⟩ : CachedResource).strongRefs = 0) ∧
    ResourceCache.findScratch ⟨[⟨2, 4, some [5], none, 3, 0⟩]⟩ [5] ≠
      some ⟨2, 4, some [5], none, 3, 0⟩ :=
  ⟨(resourceCache_findScratch_requires_unreferenced
      ⟨[⟨1, 4, some [5], none, 0, 0⟩]⟩ [5] ⟨1, 4, some [5], none, 0, 0⟩).1,
   (resourceCache_findScratch_requires_unreferenced
      ⟨[⟨2, 4, some [5], none, 3, 0⟩]⟩ [5] ⟨2, 4, some [5], none, 3, 0⟩).2
     (by decide)⟩

/-- C3: every `find` request with a unique key of equal content returns the
identical resource (same identity), including while a strong reference
obtained from an earlier request is still held — taking a reference never
changes which resource a unique-key lookup returns. -/
theorem resourceCache_findUnique_bypasses_refcount
    (cache : ResourceCache) (k1 k2 : UniqueKey) (rid : Nat) (h : k1 = k2) :
    ((cache.addRef rid).findUnique k1).map CachedResource.id =
      (cache.findUnique k2).map CachedResource.id := by
  subst h
  simpa [ResourceCache.addRef, ResourceCache.findUnique]
    using find?_map_addRef k1 rid cache.resources

/-- Witness for C3 at a concrete cache holding a resource bound to a unique
key, after taking a strong reference to that resource. -/
theorem resourceCache_findUnique_bypasses_refcount_witness :
    ((ResourceCache.addRef ⟨[⟨1, 4, none, some ⟨[9], some 3⟩, 0, 0⟩]⟩ 1).findUnique
        ⟨[9], some 3⟩).map CachedResource.id =
      (ResourceCache.findUnique ⟨[⟨1, 4, none, some ⟨[9], some 3⟩, 0, 0⟩]⟩
        ⟨[9], some 3⟩).map CachedResource.id :=
  resourceCache_findUnique_bypasses_refcount
    ⟨[⟨1, 4, none, some ⟨[9], some 3⟩, 0, 0⟩]⟩ ⟨[9], some 3⟩ ⟨[9], some 3⟩ 1 rfl

/-- C4: `purgeUntilMemoryTo(target)` evicts only unreferenced resources, in
least-recently-used order (the survivors form a sublist of the original
recency list); a resource with an outstanding strong or weak reference is
never evicted for any target; on a cache of only unreferenced resources the
purge drives total `memoryUsage()` to at most the target, and
`purgeUntilMemoryTo(0)` drives it to 0. -/
theorem resourceCache_purgeUntilMemoryTo_spec
    (cache : ResourceCache) (target : Nat) :
    List.Sublist (cache.purgeUntilMemoryTo target).resources cache.resources ∧
    (∀ r ∈ cache.resources, 0 < r.strongRefs ∨ 0 < r.weakRefs →
      r ∈ (cache.purgeUntilMemoryTo target).resources) ∧
    ((∀ r ∈ cache.resources, r.strongRefs = 0 ∧ r.weakRefs = 0) →
      (cache.purgeUntilMemoryTo target).memoryUsage ≤ target) ∧
    ((∀ r ∈ cache.resources, r.strongRefs = 0 ∧ r.weakRefs = 0) →
      (cache.purgeUntilMemoryTo 0).memoryUsage = 0) := by
  refine ⟨purgeWalk_sublist target cache.resources _, ?_, ?_, ?_⟩
  · intro r hmem href
    have hfalse : r.unreferenced = false := by
      simp only [CachedResource.unreferenced, Bool.and_eq_false_iff, beq_eq_false_iff_ne]
      omega
    exact purgeWalk_keeps_referenced target r hfalse cache.resources _ hmem
  · intro hall
    have hunref : ∀ r ∈ cache.resources, r.unreferenced = true := by
      intro r hr
      have := hall r hr
      simp [CachedResource.unreferenced, this.1, this.2]
    exact purgeWalk_reaches_target target cache.resources hunref
  · intro hall
    have hunref : ∀ r ∈ cache.resources, r.unreferenced = true := by
      intro r hr
      have := hall r hr
      simp [CachedResource.unreferenced, this.1, this.2]
    exact Nat.le_zero.mp (purgeWalk_reaches_target 0 cache.resources hunref)

/-- Witness for C4 at concrete caches: a referenced resource survives a purge
to 0, and a cache of unreferenced resources is purged to zero memory. -/
theorem resourceCache_purgeUntilMemoryTo_spec_witness :
    (⟨1, 4, none, none, 1, 0⟩ : CachedResource) ∈
      (ResourceCache.purgeUntilMemoryTo ⟨[⟨1, 4, none, none, 1, 0⟩]⟩ 0).resources ∧
    (ResourceCache.purgeUntilMemoryTo
      ⟨[⟨1, 4, none, none, 0, 0⟩, ⟨2, 3, none, none, 0, 0⟩]⟩ 0).memoryUsage = 0 :=
  ⟨(resourceCache_purgeUntilMemoryTo_spec ⟨[⟨1, 4, none, none, 1, 0⟩]⟩ 0).2.1
      ⟨1, 4, none, none, 1, 0⟩ (by decide) (Or.inl (by decide)),
   (resourceCache_purgeUntilMemoryTo_spec
      ⟨[⟨1, 4, none, none, 0, 0⟩, ⟨2, 3, none, none, 0, 0⟩]⟩ 0).2.2.2 (by decide)⟩

/-- C5: for every non-empty unique key `k` and byte sequence, `Combine(k,
bytes)` yields a key with the same domain as `k`, so `strongCount()` and
`useCount()` agree whether queried through `k` or the combined key, in every
domain-counter state. -/
theorem uniqueKey_combine_shares_domain
    (k : UniqueKey) (bytes : List Nat) (_h : k.domainId ≠ none) :
    (UniqueKey.Combine k bytes).domainId = k.domainId ∧
    ∀ domains : DomainTable,
      (UniqueKey.Combine k bytes).strongCountIn domains = k.strongCountIn domains ∧
      (UniqueKey.Combine k bytes).useCountIn domains = k.useCountIn domains :=
  ⟨rfl, fun _ => ⟨rfl, rfl⟩⟩

/-- Witness for C5 at a concrete key, byte sequence and domain table. -/
theorem uniqueKey_combine_shares_domain_witness :
    (UniqueKey.Combine ⟨[1], some 7⟩ [2, 3]).domainId = some 7 ∧
    (UniqueKey.Combine ⟨[1], some 7⟩ [2, 3]).strongCountIn [(7, ⟨5, 2⟩)] =
      UniqueKey.strongCountIn ⟨[1], some 7⟩ [(7, ⟨5, 2⟩)] ∧
    (UniqueKey.Combine ⟨[1], some 7⟩ [2, 3]).useCountIn [(7, ⟨5, 2⟩)] =
      UniqueKey.useCountIn ⟨[1], some 7⟩ [(7, ⟨5, 2⟩)] := by
  have h := uniqueKey_combine_shares_domain ⟨[1], some 7⟩ [2, 3] (by decide)
  exact ⟨h.1, (h.2 [(7, ⟨5, 2⟩)]).1, (h.2 [(7, ⟨5, 2⟩)]).2⟩

/-- C6: a proxy whose creation task's `onMakeResource(context)` returns null
resolves to null, remains unresolved for that attempt, and the creation task
is invoked exactly once (no automatic retry); nothing beyond the null return
value is propagated. -/
theorem textureProxy_resolve_null_on_failed_creation
    (proxy : TextureProxy) (context : Context)
    (hunresolved : proxy.resolvedTexture = none)
    (hfail : (proxy.task.onMakeResource context).1 = none) :
    (proxy.resolve context).1 = none ∧
    (proxy.resolve context).2.1.resolvedTexture = none ∧
    (proxy.resolve context).2.2 = 1 := by
  rcases hmk : proxy.task.onMakeResource context with ⟨result, task'⟩
  rw [hmk] at hfail
  simp only at hfail
  subst hfail
  simp [TextureProxy.resolve, hunresolved, hmk]

/-- Witness for C6 at a concrete unresolved proxy whose task has a null
decoder (so `onMakeResource` returns null). -/
theorem textureProxy_resolve_null_on_failed_creation_witness :
    (TextureProxy.resolve ⟨none, ⟨⟨[], none⟩, none, false⟩⟩ ⟨fun _ _ => none⟩).1 =
      none ∧
    (TextureProxy.resolve ⟨none, ⟨⟨[], none⟩, none, false⟩⟩
      ⟨fun _ _ => none⟩).2.1.resolvedTexture = none ∧
    (TextureProxy.resolve ⟨none, ⟨⟨[], none⟩, none, false⟩⟩ ⟨fun _ _ => none⟩).2.2 =
      1 :=
  textureProxy_resolve_null_on_failed_creation
    ⟨none, ⟨⟨[], none⟩, none, false⟩⟩ ⟨fun _ _ => none⟩ rfl rfl

/-- C7: `RenderTargetCopyTask::execute(gpu)` returns false exactly when the
source render target or the destination texture resolves to null; when both
resolve it issues exactly the stored `copyRenderTargetToTexture` call and
returns true; on the false branch no GPU command is issued. -/
theorem renderTargetCopyTask_execute_spec (task : RenderTargetCopyTask) :
    ((task.execute).1 = false ↔
      task.renderTargetProxy.renderTarget = none ∨
        task.dest.resolvedTexture = none) ∧
    (∀ rt tex, task.renderTargetProxy.renderTarget = some rt →
      task.dest.resolvedTexture = some tex →
      task.execute = (true, [GpuCommand.copyRenderTargetToTexture rt.id tex.id
        task.srcRect task.dstPoint])) ∧
    ((task.execute).1 = false → (task.execute).2 = []) := by
  obtain ⟨⟨ort⟩, ⟨otex, dtask⟩, srcRect, dstPoint⟩ := task
  rcases ort with _ | rt
  · refine ⟨by simp [RenderTargetCopyTask.execute], ?_, ?_⟩
    · intro rt' tex' h1 _
      exact absurd (show (none : Option RenderTarget) = some rt' from h1) (by simp)
    · intro _; simp [RenderTargetCopyTask.execute]
  · rcases otex with _ | tex
    · refine ⟨by simp [RenderTargetCopyTask.execute], ?_, ?_⟩
      · intro rt' tex' _ h2
        exact absurd (show (none : Option Texture) = some tex' from h2) (by simp)
      · intro _; simp [RenderTargetCopyTask.execute]
    · refine ⟨by simp [RenderTargetCopyTask.execute], ?_, ?_⟩
      · intro rt' tex' h1 h2
        have h1' : some rt = some rt' := h1
        have h2' : some tex = some tex' := h2
        cases h1'
        cases h2'
        rfl
      · intro hfalse
        exact absurd hfalse (by simp [RenderTargetCopyTask.execute])

/-- Witness for C7 at a concrete task whose source and destination both
resolve: the copy is issued with the stored rectangle and point. -/
theorem renderTargetCopyTask_execute_spec_witness :
    RenderTargetCopyTask.execute
        ⟨⟨some ⟨1, 1⟩⟩, ⟨some ⟨2, false⟩, ⟨⟨[], none⟩, none, false⟩⟩,
          ⟨0, 0, 8, 8⟩, ⟨3, 4⟩⟩ =
      (true, [GpuCommand.copyRenderTargetToTexture 1 2 ⟨0, 0, 8, 8⟩ ⟨3, 4⟩]) :=
  (renderTargetCopyTask_execute_spec
      ⟨⟨some ⟨1, 1⟩⟩, ⟨some ⟨2, false⟩, ⟨⟨[], none⟩, none, false⟩⟩,
        ⟨0, 0, 8, 8⟩, ⟨3, 4⟩⟩).2.1 ⟨1, 1⟩ ⟨2, false⟩ rfl rfl

/-- C8: `TextureResolveRenderTask::execute(gpu)` issues multisample
resolution exactly when the render target's sample count exceeds 1, issues
mipmap regeneration exactly when the attached texture is non-null and its
sampler has mipmaps, and always returns true. -/
theorem textureResolveRenderTask_execute_spec (task : TextureResolveRenderTask) :
    (task.execute).1 = true ∧
    (issuesResolve (task.execute).2 ↔ 1 < task.renderTarget.sampleCount) ∧
    (issuesMipRegen (task.execute).2 ↔
      ∃ t, task.texture = some t ∧ t.samplerHasMipmaps = true) := by
  obtain ⟨⟨rtid, sc⟩, tex⟩ := task
  refine ⟨rfl, ?_, ?_⟩
  · by_cases hs : sc > 1
    · rcases tex with _ | t
      · simp [TextureResolveRenderTask.execute, issuesResolve, hs]
      · by_cases hm : t.samplerHasMipmaps <;>
          simp [TextureResolveRenderTask.execute, issuesResolve, hs, hm]
    · rcases tex with _ | t
      · simp [TextureResolveRenderTask.execute, issuesResolve, hs]
      · by_cases hm : t.samplerHasMipmaps <;>
          simp [TextureResolveRenderTask.execute, issuesResolve, hs, hm]
  · by_cases hs : sc > 1
    · rcases tex with _ | t
      · simp [TextureResolveRenderTask.execute, issuesMipRegen, hs]
      · by_cases hm : t.samplerHasMipmaps <;>
          simp [TextureResolveRenderTask.execute, issuesMipRegen, hs, hm]
    · rcases tex with _ | t
      · simp [TextureResolveRenderTask.execute, issuesMipRegen, hs]
      · by_cases hm : t.samplerHasMipmaps <;>
          simp [TextureResolveRenderTask.execute, issuesMipRegen, hs, hm]

/-- Witness for C8 at a concrete multisampled target with a mipmapped
texture: the resolve and mip regeneration are both issued and the task
reports success. -/
theorem textureResolveRenderTask_execute_spec_witness :
    (TextureResolveRenderTask.execute ⟨⟨1, 4⟩, some ⟨2, true⟩⟩).1 = true ∧
    issuesResolve (TextureResolveRenderTask.execute ⟨⟨1, 4⟩, some ⟨2, true⟩⟩).2 ∧
    issuesMipRegen (TextureResolveRenderTask.execute ⟨⟨1, 4⟩, some ⟨2, true⟩⟩).2 :=
  ⟨(textureResolveRenderTask_execute_spec ⟨⟨1, 4⟩, some ⟨2, true⟩⟩).1,
   (textureResolveRenderTask_execute_spec ⟨⟨1, 4⟩, some ⟨2, true⟩⟩).2.1.mpr
     (by decide),
   (textureResolveRenderTask_execute_spec ⟨⟨1, 4⟩, some ⟨2, true⟩⟩).2.2.mpr
     ⟨⟨2, true⟩, rfl, rfl⟩⟩

/-- C9: after a call to `ImageDecoderTask::onMakeResource(context)` that
returns a non-null texture, the task's reference to its decoder is null — the
decoded buffer is released immediately upon successful texture
materialization. -/
theorem imageDecoderTask_releases_decoder_on_success
    (task : ImageDecoderTask) (context : Context) (texture : Texture)
    (h : (task.onMakeResource context).1 = some texture) :
    (task.onMakeResource context).2.decoder = none := by
  rcases hdec : task.decoder with _ | decoder
  · simp [ImageDecoderTask.onMakeResource, hdec] at h
  · rcases hbuf : decoder.decodeResult with _ | imageBuffer
    · simp [ImageDecoderTask.onMakeResource, hdec, hbuf] at h
    · rcases hmk : context.makeTexture imageBuffer task.mipMapped with _ | t
      · simp [ImageDecoderTask.onMakeResource, hdec, hbuf, hmk] at h
      · simp [ImageDecoderTask.onMakeResource, hdec, hbuf, hmk]

/-- Witness for C9 at a concrete task whose decode and texture creation both
succeed. -/
theorem imageDecoderTask_releases_decoder_on_success_witness :
    (ImageDecoderTask.onMakeResource ⟨⟨[], none⟩, some ⟨some ⟨1⟩⟩, false⟩
      ⟨fun _ _ => some ⟨5, false⟩⟩).2.decoder = none :=
  imageDecoderTask_releases_decoder_on_success
    ⟨⟨[], none⟩, some ⟨some ⟨1⟩⟩, false⟩ ⟨fun _ _ => some ⟨5, false⟩⟩
    ⟨5, false⟩ rfl

/-- C10: `TextureCreateTask::MakeFrom(uniqueKey, width, height, ...)` returns
null exactly when width ≤ 0 or height ≤ 0, and `TextureCreateTask::MakeFrom(
uniqueKey, decoder, ...)` returns null exactly when the decoder is null; no
task object is created in those cases. -/
theorem textureCreateTask_makeFrom_guards
    (uniqueKey : UniqueKey) (width height : Int) (format : PixelFormat)
    (mipMapped : Bool) (origin : ImageOrigin) (decoder : Option ImageDecoder) :
    (TextureCreateTask.MakeFrom uniqueKey width height format mipMapped origin =
        none ↔ width ≤ 0 ∨ height ≤ 0) ∧
    (TextureCreateTask.MakeFromDecoder uniqueKey decoder mipMapped = none ↔
      decoder = none) := by
  constructor
  · by_cases h : width ≤ 0 ∨ height ≤ 0 <;>
      simp [TextureCreateTask.MakeFrom, h]
  · cases decoder <;> simp [TextureCreateTask.MakeFromDecoder]

end Tgfx
